import Mathlib

/-!
Verification development for the IaC evaluation and policy scanning engine.

The development shallowly embeds two layers of the engine:

* the Terraform module loader (`loadModule` / `loadModules` /
  `loadModuleFromTerraformCache` / `loadExternalModule`), translated from
  `pkg/iac/scanners/terraform/parser/load_module.go`;
* the Rego policy scanning pipeline (selector gating, namespace gating,
  namespace- and rule-level exceptions, pass/fail/ignored bucketing) and the
  Terraform evaluator behaviours (count-based module pruning, child-module
  output propagation), modelled from the specification since the scanner and
  evaluator sources are represented here only by their tests.

String primitives are implemented over character lists so that all concrete
evaluations reduce in the kernel.
-/

set_option autoImplicit false

/-- Association lookup returning the value of the first pair whose key equals
`k`, mirroring first-match map semantics. -/
def lookupStr {α : Type} (l : List (String × α)) (k : String) : Option α :=
  match l with
  | [] => none
  | (k', v) :: rest => if k' = k then some v else lookupStr rest k

/-- Go `strings.HasPrefix pre s`, via character lists. -/
def strStartsWith (pre s : String) : Bool :=
  pre.data.isPrefixOf s.data

/-- Go `strings.HasSuffix suf s`, via character lists. -/
def strEndsWith (suf s : String) : Bool :=
  suf.data.isSuffixOf s.data

/-- Go `strings.Count s c` for a single-character separator: the number of
occurrences of the character `c` in `s`. -/
def countChar (c : Char) (s : String) : Nat :=
  (s.data.filter (fun x => x = c)).length

/-- Helper for Go `strings.Cut`: find the first occurrence of `sep` in the
character list, returning the part before it and the part after it. -/
def listCut (sep : List Char) : List Char → Option (List Char × List Char)
  | [] => none
  | x :: rest =>
    if sep.isPrefixOf (x :: rest) then some ([], (x :: rest).drop sep.length)
    else
      match listCut sep rest with
      | some (before, post) => some (x :: before, post)
      | none => none

/-- Go `strings.Cut(s, sep)` for a non-empty separator: `(before, after,
found)` split at the first occurrence of `sep`. -/
def goStringsCut (s sep : String) : String × String × Bool :=
  match listCut sep.data s.data with
  | some (before, post) => (⟨before⟩, ⟨post⟩, true)
  | none => (s, "", false)

/-- Split a character list at every occurrence of the character `c`. -/
def splitChar (c : Char) : List Char → List (List Char)
  | [] => [[]]
  | x :: rest =>
    let r := splitChar c rest
    if x = c then [] :: r
    else
      match r with
      | [] => [[x]]
      | h :: t => (x :: h) :: t

/-- Split a string on the path separator character. -/
def splitOnSlash (s : String) : List String :=
  (splitChar '/' s.data).map (fun l => ⟨l⟩)

/-- Lexical path cleaning of the component list, as done by Go `path.Clean`:
drop empty and `.` components and fold `..` against the preceding component
(dropping it entirely at the root of a rooted path). -/
def cleanComponents (rooted : Bool) (comps : List String) : List String :=
  comps.foldl
    (fun acc c =>
      if c = "" ∨ c = "." then acc
      else if c = ".." then
        match acc.getLast? with
        | some l => if l = ".." then acc ++ [c] else acc.dropLast
        | none => if rooted then [] else [c]
      else acc ++ [c])
    []

/-- Go `path.Clean`: lexical simplification of a slash-separated path. -/
def pathClean (p : String) : String :=
  if p = "" then "."
  else
    let rooted := strStartsWith "/" p
    let out := cleanComponents rooted (splitOnSlash p)
    let joined := String.intercalate "/" out
    if rooted then "/" ++ joined
    else if joined = "" then "." else joined

/-- Go `path.Join(a, b)`: join the non-empty elements with a slash and clean
the result; the empty string when both elements are empty. -/
def pathJoin (a b : String) : String :=
  if a = "" ∧ b = "" then ""
  else if a = "" then pathClean b
  else if b = "" then pathClean a
  else pathClean (a ++ "/" ++ b)

/-- First dotted component of a package namespace, e.g. `"users"` for
`"users.my_rule"`. -/
def namespaceTopLevel (ns : String) : String :=
  ⟨ns.data.takeWhile (fun c => c ≠ '.')⟩

example : namespaceTopLevel "users.my_rule" = "users" := by decide
example : goStringsCut "a/b/c//sub/dir" "//" = ("a/b/c", "sub/dir", true) := by decide
example : pathClean "proj/./modules/../modules/iam" = "proj/modules/iam" := by decide
example : pathJoin "proj" "modules/iam" = "proj/modules/iam" := by decide
example : strStartsWith "defsec" "defsec.test" = true := by decide
example : countChar '/' "a/b/c" = 2 := by decide

/-!
## Rego policy scanning pipeline

Modelled from the spec: the policy engine adapter and the exception/result
resolver (`pkg/iac/rego`) are present in the sources only through their tests,
so the pipeline below follows the specification (§4.3 Policy Engine Adapter,
§4.4 Exception & Result Resolver) and is validated against the expectations of
`scanner_test.go`.
-/

/-- Modelled from the spec: an input document handed to the policy engine — a
source path, the declared input type, the declared subtype (service/provider
pair), and the document contents, reduced to the boolean fields the test
policies inspect. -/
structure RegoInput where
  path : String
  itype : String
  service : String
  provider : String
  fields : List (String × Bool)
deriving DecidableEq

/-- Truth of a named boolean field of the input document; absent fields read
as false. -/
def fieldTrue (inp : RegoInput) (n : String) : Bool :=
  (lookupStr inp.fields n).getD false

/-- Modelled from the spec: one Selector entry — an input-type matcher with an
optional list of `(service, provider)` subtypes. -/
structure Selector where
  itype : String
  subtypes : List (String × String)
deriving DecidableEq

/-- Modelled from the spec: a single deny/warn predicate of a policy, carrying
its rule name (e.g. `"deny"`, `"deny_evil"`, `"warn"`). -/
structure RegoRule where
  rname : String
  predicate : RegoInput → Bool

/-- Modelled from the spec: a compiled policy — its package namespace, its
Selector list, and its rules. -/
structure Policy where
  nspace : String
  selectors : List Selector
  rules : List RegoRule

/-- Modelled from the spec: a rule-level exception — declared in a namespace,
returning the list of rule names (without their `deny_`/`warn_` id) it
suppresses. -/
structure RuleException where
  nspace : String
  ruleNames : List String
deriving DecidableEq

/-- Modelled from the spec: the configured scanner — loaded policies, the
namespace prefixes returned by namespace-level exception rules, the loaded
rule-level exceptions, and the caller's namespace allow-list (empty when none
was configured). -/
structure Scanner where
  policies : List Policy
  nsExceptions : List String
  ruleExceptions : List RuleException
  allowedNamespaces : List String

/-- Terminal classification of one evaluated (policy, rule, input) triple. -/
inductive RStatus where
  | spassed
  | sfailed
  | signored
deriving DecidableEq

/-- One scan result: the originating namespace and rule name, its bucket, the
warning flag (`IsWarning()`), and the attributed source path. -/
structure RegoResult where
  nspace : String
  rule : String
  status : RStatus
  warning : Bool
  path : String
deriving DecidableEq

/-- Namespace roots whose policies always run: the built-in policy sets.
Validated against `Test_OptionWithPolicyNamespaces` and the default
namespaces exercised by the rego scanner tests. -/
def builtinNamespaces : List String :=
  ["builtin", "appshield", "defsec"]

/-- Namespace gate of the scanner: a policy runs when the first dotted
component of its namespace is a built-in root or one of the caller's allowed
names. Validated against every row of `Test_OptionWithPolicyNamespaces`. -/
def namespaceAllowed (allowed : List String) (ns : String) : Bool :=
  (builtinNamespaces ++ allowed).contains (namespaceTopLevel ns)

/-- Modelled from the spec: the namespace gate as the specification words it —
"only policies whose namespace matches (exact or dotted-prefix) one of the
allowed names are evaluated; otherwise all built-in and all user-declared
namespaces run". Kept for comparison with `namespaceAllowed`; refuted by the
in-source test table `nsGateTestTable`. -/
def namespaceAllowedSpec (allowed : List String) (ns : String) : Bool :=
  if allowed.isEmpty then true
  else allowed.any (fun a => ns = a || strStartsWith (a ++ ".") ns)

/-- Modelled from the spec: a Selector entry matches the input's declared
`{type, subtype:{service, provider}}` tuple when the types are equal and
either no subtype is declared or one of the declared subtypes equals the
input's service/provider pair. -/
def selectorMatches (sel : Selector) (inp : RegoInput) : Bool :=
  sel.itype = inp.itype &&
    (sel.subtypes.isEmpty ||
      sel.subtypes.any (fun st => st.1 = inp.service && st.2 = inp.provider))

/-- Modelled from the spec: a policy applies to an input when it has no
selector or at least one Selector entry matches. -/
def policyApplies (p : Policy) (inp : RegoInput) : Bool :=
  p.selectors.isEmpty || p.selectors.any (fun sel => selectorMatches sel inp)

/-- Modelled from the spec: a namespace-level exception suppresses a policy
when the policy's namespace is matched, exactly or by prefix, by one of the
namespaces returned by an exception rule. -/
def nsExceptionApplies (s : Scanner) (ns : String) : Bool :=
  s.nsExceptions.any (fun pre => strStartsWith pre ns)

/-- Modelled from the spec: a rule-level exception suppresses a rule when an
exception declared in the same namespace returns the rule's name with its
`deny_`/`warn_` marker removed. -/
def ruleExceptionApplies (s : Scanner) (ns ruleName : String) : Bool :=
  s.ruleExceptions.any (fun e =>
    e.nspace = ns &&
      e.ruleNames.any (fun x => ruleName = "deny_" ++ x || ruleName = "warn_" ++ x))

/-- Modelled from the spec: resolution of a single (policy rule, input) pair —
an applicable namespace- or rule-level exception moves the result to Ignored;
otherwise a firing predicate yields a failed result (flagged as warning for
`warn` rules) and a non-firing predicate yields a passed result. -/
def evalRule (s : Scanner) (inp : RegoInput) (ns : String) (r : RegoRule) : RegoResult :=
  if nsExceptionApplies s ns || ruleExceptionApplies s ns r.rname then
    { nspace := ns, rule := r.rname, status := .signored, warning := false, path := inp.path }
  else if r.predicate inp then
    { nspace := ns, rule := r.rname, status := .sfailed,
      warning := strStartsWith "warn" r.rname, path := inp.path }
  else
    { nspace := ns, rule := r.rname, status := .spassed, warning := false, path := inp.path }

/-- Modelled from the spec: the results contributed by one policy — nothing
when the namespace gate or the selector gate rejects it, one result per rule
otherwise. -/
def policyResults (s : Scanner) (inp : RegoInput) (p : Policy) : List RegoResult :=
  if namespaceAllowed s.allowedNamespaces p.nspace && policyApplies p inp then
    p.rules.map (evalRule s inp p.nspace)
  else []

/-- Modelled from the spec: scanning one input evaluates every loaded policy
against it. -/
def scanInput (s : Scanner) (inp : RegoInput) : List RegoResult :=
  (s.policies.map (policyResults s inp)).flatten

/-- The "failed" bucket of a scan (`GetFailed`). -/
def getFailed (s : Scanner) (inp : RegoInput) : List RegoResult :=
  (scanInput s inp).filter (fun r => r.status = .sfailed)

/-- The "passed" bucket of a scan (`GetPassed`). -/
def getPassed (s : Scanner) (inp : RegoInput) : List RegoResult :=
  (scanInput s inp).filter (fun r => r.status = .spassed)

/-- The "ignored" bucket of a scan (`GetIgnored`). -/
def getIgnored (s : Scanner) (inp : RegoInput) : List RegoResult :=
  (scanInput s inp).filter (fun r => r.status = .signored)

/-- Input document of the rego scanner tests: `{"evil": true}` at path
`/evil.lol`, scanned as JSON source. -/
def evilInput : RegoInput :=
  { path := "/evil.lol", itype := "json", service := "", provider := "", fields := [("evil", true)] }

/-- Policy of `Test_RegoScanning_Deny`: package `defsec.test` with a `deny`
rule firing on `input.evil`. -/
def denyPolicy : Policy :=
  { nspace := "defsec.test", selectors := [],
    rules := [{ rname := "deny", predicate := fun i => fieldTrue i "evil" }] }

/-- Scanner of `Test_RegoScanning_Deny`: the deny policy alone, no exceptions,
no namespace allow-list. -/
def denyScanner : Scanner :=
  { policies := [denyPolicy], nsExceptions := [], ruleExceptions := [], allowedNamespaces := [] }

example : getFailed denyScanner evilInput =
    [{ nspace := "defsec.test", rule := "deny", status := .sfailed,
       warning := false, path := "/evil.lol" }] := by decide
example : getPassed denyScanner evilInput = [] := by decide
example : getIgnored denyScanner evilInput = [] := by decide

/-- Scanner of `Test_RegoScanning_Namespace_Exception`: the deny policy plus a
namespace exception rule returning every loaded namespace that starts with
`"defsec"`. -/
def nsExcScanner : Scanner :=
  { policies := [denyPolicy], nsExceptions := ["defsec"], ruleExceptions := [],
    allowedNamespaces := [] }

/-- The single ignored result expected by
`Test_RegoScanning_Namespace_Exception`. -/
def nsExcResult : RegoResult :=
  { nspace := "defsec.test", rule := "deny", status := .signored,
    warning := false, path := "/evil.lol" }

/-- Second policy of `Test_RegoScanning_Namespace_Exception_WithoutMatch`:
package `builtin.test` with a `deny_something` rule firing on
`input.something`. -/
def builtinPolicy : Policy :=
  { nspace := "builtin.test", selectors := [],
    rules := [{ rname := "deny_something", predicate := fun i => fieldTrue i "something" }] }

/-- Scanner of `Test_RegoScanning_Namespace_Exception_WithoutMatch`: two
policies and a namespace exception returning namespaces starting with
`"builtin"`. -/
def nsExcNoMatchScanner : Scanner :=
  { policies := [denyPolicy, builtinPolicy], nsExceptions := ["builtin"],
    ruleExceptions := [], allowedNamespaces := [] }

/-- Policy of `Test_RegoScanning_Rule_Exception`: package `defsec.test` with a
`deny_evil` rule. -/
def denyEvilPolicy : Policy :=
  { nspace := "defsec.test", selectors := [],
    rules := [{ rname := "deny_evil", predicate := fun i => fieldTrue i "evil" }] }

/-- Scanner of `Test_RegoScanning_Rule_Exception`: a rule exception in
`defsec.test` returning `["evil"]`. -/
def ruleExcScanner : Scanner :=
  { policies := [denyEvilPolicy], nsExceptions := [],
    ruleExceptions := [{ nspace := "defsec.test", ruleNames := ["evil"] }],
    allowedNamespaces := [] }

/-- Scanner of `Test_RegoScanning_Rule_Exception_WithoutMatch`: a rule
exception in `defsec.test` returning `["good"]`, which names no rule of the
policy. -/
def ruleExcNoMatchScanner : Scanner :=
  { policies := [denyEvilPolicy], nsExceptions := [],
    ruleExceptions := [{ nspace := "defsec.test", ruleNames := ["good"] }],
    allowedNamespaces := [] }

/-- Policy of `Test_RegoScanning_WithMatchingInputSelector`: a selector
declaring input type `json`, matching the scanned JSON source. -/
def selMatchPolicy : Policy :=
  { nspace := "defsec.test", selectors := [{ itype := "json", subtypes := [] }],
    rules := [{ rname := "deny", predicate := fun i => fieldTrue i "evil" }] }

/-- Policy of `Test_RegoScanning_WithNonMatchingInputSelector`: a selector
declaring input type `testing`, matching nothing the scanner feeds it. -/
def selNoMatchPolicy : Policy :=
  { nspace := "defsec.test", selectors := [{ itype := "testing", subtypes := [] }],
    rules := [{ rname := "deny", predicate := fun i => fieldTrue i "evil" }] }

/-- Scanner of `Test_RegoScanning_WithMatchingInputSelector`. -/
def selMatchScanner : Scanner :=
  { policies := [selMatchPolicy], nsExceptions := [], ruleExceptions := [],
    allowedNamespaces := [] }

/-- Scanner of `Test_RegoScanning_WithNonMatchingInputSelector`. -/
def selNoMatchScanner : Scanner :=
  { policies := [selNoMatchPolicy], nsExceptions := [], ruleExceptions := [],
    allowedNamespaces := [] }

/-- Policy of `Test_RegoScanning_Warn`: package `defsec.test` with a `warn`
rule firing on `input.evil`. -/
def warnPolicy : Policy :=
  { nspace := "defsec.test", selectors := [],
    rules := [{ rname := "warn", predicate := fun i => fieldTrue i "evil" }] }

/-- Scanner of `Test_RegoScanning_Warn`. -/
def warnScanner : Scanner :=
  { policies := [warnPolicy], nsExceptions := [], ruleExceptions := [],
    allowedNamespaces := [] }

/-- The namespace-gate expectations of `Test_OptionWithPolicyNamespaces`, one
row per sub-test: the configured allow-list, the policy's namespace, and
whether the policy was evaluated (its deny rule reported a failure). -/
def nsGateTestTable : List (List String × String × Bool) :=
  [ ([], "blah", false),
    ([], "appshield.something", true),
    ([], "defsec.blah", true),
    (["user"], "users", false),
    (["users"], "something.users", false),
    (["users"], "users", true),
    (["users"], "users.my_rule", true),
    (["a", "users", "b"], "users", true),
    (["user"], "defsec", true) ]

example : getIgnored nsExcScanner evilInput = [nsExcResult] := by decide
example : getFailed nsExcNoMatchScanner evilInput =
    [{ nspace := "defsec.test", rule := "deny", status := .sfailed,
       warning := false, path := "/evil.lol" }] := by decide
example : (getIgnored nsExcNoMatchScanner evilInput).length = 1 := by decide
example : (getIgnored ruleExcScanner evilInput).length = 1 := by decide
example : getFailed ruleExcScanner evilInput = [] := by decide
example : (getFailed ruleExcNoMatchScanner evilInput).length = 1 := by decide
example : getIgnored ruleExcNoMatchScanner evilInput = [] := by decide
example : (getFailed selMatchScanner evilInput).length = 1 := by decide
example : scanInput selNoMatchScanner evilInput = [] := by decide
example : (getFailed warnScanner evilInput).map RegoResult.warning = [true] := by decide
example : nsGateTestTable.all
    (fun row => namespaceAllowed row.1 row.2.1 == row.2.2) = true := by decide

/-!
## Terraform module loader

Shallow embedding of `pkg/iac/scanners/terraform/parser/load_module.go`.
External collaborators of that file — the HCL parser (`ParseFS`) and the
module source resolvers (`resolveModule`) — are modelled as oracle fields of
the evaluator state, since only their success or failure is observable from
the loader.
-/

/-- HCL attribute value, restricted to the shapes `loadModule` inspects: it
only asks whether a value is a string. -/
inductive CtyValue where
  | str (s : String)
  | bool (b : Bool)
  | num (n : Int)
  | nullv
deriving DecidableEq

/-- One attribute of a block: a name and its evaluated value. -/
structure TFAttr where
  name : String
  value : CtyValue
deriving DecidableEq

/-- The slice of a `terraform.Block` that `load_module.go` reads: its label,
its full module-qualified names, the rendered source range of its metadata,
and its attributes. -/
structure TFBlock where
  label : String
  moduleName : String
  fullName : String
  rangeStr : String
  attrs : List TFAttr
deriving DecidableEq

/-- One entry of a `.terraform/modules/modules.json` manifest: the module key
and its cached directory. -/
structure ModuleMetadataEntry where
  key : String
  dir : String
deriving DecidableEq

/-- The pre-fetched module-cache manifest. -/
structure ModulesMetadata where
  modules : List ModuleMetadataEntry
deriving DecidableEq

/-- The fields of the evaluator that `load_module.go` reads, with its two
external collaborators as oracles: `parseFS dir` tells whether parsing the
configuration under `dir` succeeds, and `resolveExternal source version`
returns the download path of an externally resolved module or an error. -/
structure Evaluator where
  moduleMetadata : Option ModulesMetadata
  projectRootPath : String
  parseFS : String → Bool
  resolveExternal : String → String → Except String String

/-- The resolution metadata `load_module.go` produces for one module block. -/
structure ModuleDefinitionL where
  name : String
  path : String
  definition : TFBlock
  external : Bool
deriving DecidableEq

/-- The `source` attribute scan of `loadModule`: walk the block's attributes
and remember the last `source` attribute holding a string value; every other
shape (missing attribute, non-string value) leaves the empty string. -/
def getSourceAttr (b : TFBlock) : String :=
  b.attrs.foldl
    (fun acc a =>
      if a.name = "source" then
        match a.value with
        | .str s => s
        | _ => acc
      else acc)
    ""

/-- `b.GetAttribute(n).AsStringValueOrDefault("", b).Value()`: the string
value of the first attribute named `n`, or the empty string. -/
def getAttrString (b : TFBlock) (n : String) : String :=
  match b.attrs.find? (fun a => a.name = n) with
  | some a =>
    match a.value with
    | .str s => s
    | _ => ""
  | none => ""

/-- `loadModuleFromTerraformCache`, split in three: the manifest lookup by
the block's module name (cleaned against the project root and empty when
nothing matches), the `//subdir` resolution against that path, and the load
itself, whose produced definition is not marked external. -/
def cacheModulePath (e : Evaluator) (b : TFBlock) : String :=
  match e.moduleMetadata with
  | some meta =>
    match meta.modules.find? (fun m => m.key = b.moduleName) with
    | some m => pathClean (pathJoin e.projectRootPath m.dir)
    | none => ""
  | none => ""

/-- The cached path after resolving a `//subdir` suffix of a registry-shaped
source against it: a relative source is first blanked, and the suffix after
the first `//` of a source whose head is not scheme-terminated and holds
exactly two slashes is appended unless the path already ends in it. -/
def cacheResolvedPath (e : Evaluator) (b : TFBlock) (source0 : String) : String :=
  let source := if strStartsWith "." source0 then "" else source0
  let cut := goStringsCut source "//"
  let base := cacheModulePath e b
  if cut.2.2 && !strEndsWith ":" cut.1 && (countChar '/' cut.1 == 2) then
    if !strEndsWith cut.2.1 base then base ++ "/" ++ cut.2.1
    else base
  else base

def loadModuleFromTerraformCache (e : Evaluator) (b : TFBlock) (source0 : String) :
    Except String ModuleDefinitionL :=
  if cacheModulePath e b = "" then
    Except.error "failed to load module from .terraform/modules"
  else if e.parseFS (cacheResolvedPath e b source0) then
    Except.ok { name := b.label, path := cacheResolvedPath e b source0, definition := b,
                external := false }
  else
    Except.error "failed to parse module files"

/-- `loadExternalModule`: resolve the source externally (registry, VCS, HTTP,
cloud storage), parse the downloaded directory, and mark the definition
external. -/
def loadExternalModule (e : Evaluator) (b : TFBlock) (source : String) :
    Except String ModuleDefinitionL :=
  match e.resolveExternal source (getAttrString b "version") with
  | Except.error err => Except.error err
  | Except.ok downloadPath =>
    if e.parseFS downloadPath then
      Except.ok { name := b.label, path := downloadPath, definition := b, external := true }
    else
      Except.error "failed to parse module files"

/-- `loadModule`: reject an unlabeled block, read the `source` attribute
(reporting the block's range when it is unusable), prefer the module-cache
lookup, and fall back to external resolution when the cache path errors. -/
def loadModule (e : Evaluator) (b : TFBlock) : Except String ModuleDefinitionL :=
  if b.label = "" then
    Except.error ("module without label at " ++ b.rangeStr)
  else if getSourceAttr b = "" then
    Except.error ("could not read module source attribute at " ++ b.rangeStr)
  else
    match loadModuleFromTerraformCache e b (getSourceAttr b) with
    | Except.ok d => Except.ok d
    | Except.error _ => loadExternalModule e b (getSourceAttr b)

/-- `loadModules`: walk the expanded module blocks, silently skipping
unlabeled blocks, logging and skipping blocks whose load fails, and collecting
the successfully loaded definitions in order. -/
def loadModules (e : Evaluator) : List TFBlock → List ModuleDefinitionL
  | [] => []
  | b :: rest =>
    if b.label = "" then loadModules e rest
    else
      match loadModule e b with
      | Except.ok d => d :: loadModules e rest
      | Except.error _ => loadModules e rest

/-!
## Terraform evaluator: module expansion and pruning

Modelled from the spec: the evaluator (`pkg/iac/scanners/terraform`) is
present in the sources only through its tests, so module expansion and
pruning follow §4.2 of the specification — a `module` block with a `count` or
`for_each` meta-attribute is expanded into N indexed/keyed copies before
evaluation, and a module instantiated with `count = 0` (or an empty
`for_each`) is pruned together with its transitive children.
-/

mutual
/-- Modelled from the spec: an instantiated module subtree — the number of
expanded copies of this instantiation (`count`/`for_each` cardinality, 1 when
neither meta-attribute is present), the names of the resources the module
declares, and its child module instantiations. -/
inductive ModTree where
  | node (instances : Nat) (resources : List String) (children : ModForest)
deriving DecidableEq
/-- A list of child-module instantiations. -/
inductive ModForest where
  | nil
  | cons (t : ModTree) (rest : ModForest)
deriving DecidableEq
end

mutual
/-- Modelled from the spec: the findings a module subtree contributes to the
scan — each of the N expanded copies contributes its resources that violate
the deny predicate plus the findings of its children; a pruned instantiation
(zero copies) contributes nothing. -/
def evalModuleTree (p : String → Bool) : ModTree → List String
  | .node n res ch => (List.replicate n (res.filter p ++ evalModuleForest p ch)).flatten
/-- Findings contributed by a list of child-module instantiations. -/
def evalModuleForest (p : String → Bool) : ModForest → List String
  | .nil => []
  | .cons t rest => evalModuleTree p t ++ evalModuleForest p rest
end

/-- The module tree of `TestScanModuleWithCount`: the s3 module declares
bucket `"test"` and a child logging module declaring bucket `"test1"`; the
root instantiates it once under `code/main.tf` with `count = 0` and once,
unconditionally, under `code/example/main.tf`. -/
def s3ModuleTree : ModTree :=
  .node 1 ["test"] (.cons (.node 1 ["test1"] .nil) .nil)

/-- Root of the `TestScanModuleWithCount` configuration. -/
def countTestTree : ModTree :=
  .node 1 []
    (.cons (.node 0 [] (.cons s3ModuleTree .nil))
      (.cons (.node 1 [] (.cons s3ModuleTree .nil)) .nil))

/-- Deny predicate of the `TestScanModuleWithCount` policy: a bucket named
`"test"` is not allowed. -/
def denyTestBucket : String → Bool := fun r => r = "test"

example : evalModuleTree denyTestBucket countTestTree = ["test"] := by decide

/-!
## Terraform evaluator: child-module output propagation

Modelled from the spec: §4.2 step 3 — a `module` block's child is evaluated
to its own fixpoint, then its `output` values are exposed under a
`module.<name>.<output>` namespace in the parent's evaluation context.
-/

/-- Modelled from the spec: an evaluated value — a resolved string or the
unknown value that unresolved references degrade to. -/
inductive TVal where
  | vstr (s : String)
  | vunknown
deriving DecidableEq

/-- Modelled from the spec: an attribute expression — a literal or a
reference into the evaluation context. -/
inductive TExpr where
  | lit (v : TVal)
  | ref (n : String)
deriving DecidableEq

/-- Expression evaluation against an evaluation context: an unresolved
reference yields the unknown value rather than aborting. -/
def evalExpr (ctx : List (String × TVal)) : TExpr → TVal
  | .lit v => v
  | .ref n => (lookupStr ctx n).getD .vunknown

/-- One fixpoint pass: re-evaluate every binding in the current context. -/
def evalPass (binds : List (String × TExpr)) (ctx : List (String × TVal)) :
    List (String × TVal) :=
  binds.map (fun b => (b.1, evalExpr ctx b.2))

/-- Bounded iterative evaluation: `k` passes starting from the empty
context. -/
def evalFixN (binds : List (String × TExpr)) : Nat → List (String × TVal)
  | 0 => []
  | k + 1 => evalPass binds (evalFixN binds k)

/-- An `output "<name>" { value = <expr> }` block of a child module. -/
structure OutputDef where
  oname : String
  oexpr : TExpr
deriving DecidableEq

/-- Modelled from the spec: a child module — its instantiation name, its
internal bindings (resources, locals), and its output blocks. -/
structure ChildMod where
  cname : String
  bindings : List (String × TExpr)
  outputs : List OutputDef
deriving DecidableEq

/-- The child module's own evaluation context at its fixpoint: one bounded
pass per binding plus one. -/
def childCtx (c : ChildMod) : List (String × TVal) :=
  evalFixN c.bindings (c.bindings.length + 1)

/-- The value the child's own evaluation produced for `output "<o>"`; unknown
when no such output is declared. -/
def childOutputVal (c : ChildMod) (o : String) : TVal :=
  match c.outputs.find? (fun d => d.oname = o) with
  | some d => evalExpr (childCtx c) d.oexpr
  | none => .vunknown

/-- The bindings a child module contributes to its parent's context: each
declared output under the `module.<name>.<output>` key. -/
def moduleOutputBindings (c : ChildMod) : List (String × TVal) :=
  c.outputs.map (fun d => ("module." ++ c.cname ++ "." ++ d.oname, evalExpr (childCtx c) d.oexpr))

/-- Modelled from the spec: a parent module — its child instantiations and
its own attribute expressions. -/
structure ParentMod where
  children : List ChildMod
  attrs : List (String × TExpr)
deriving DecidableEq

/-- The parent's evaluation context after every child reached its fixpoint:
the concatenated `module.<name>.<output>` bindings of its children. -/
def parentCtx (p : ParentMod) : List (String × TVal) :=
  (p.children.map moduleOutputBindings).flatten

/-- The resolved value of one of the parent's attributes. -/
def parentAttrVal (p : ParentMod) (a : String) : TVal :=
  match lookupStr p.attrs a with
  | some e => evalExpr (parentCtx p) e
  | none => .vunknown

/-- The child module of `Test_RoleRefToOutput`: `modules/iam` declares role
`example` whose id evaluates to `"example"`, and exposes it as output
`role_name`. -/
def iamChild : ChildMod :=
  { cname := "this",
    bindings := [("aws_iam_role.example.id", .lit (.vstr "example"))],
    outputs := [{ oname := "role_name", oexpr := .ref "aws_iam_role.example.id" }] }

/-- The root module of `Test_RoleRefToOutput`: its `aws_iam_role_policy` role
attribute is bound to `module.this.role_name`. -/
def roleRefParent : ParentMod :=
  { children := [iamChild],
    attrs := [("role", .ref "module.this.role_name")] }

example : parentAttrVal roleRefParent "role" = .vstr "example" := by decide
example : childOutputVal iamChild "role_name" = .vstr "example" := by decide

/-!
## Shared lemmas about the scanning pipeline
-/

theorem evalRule_nspace (s : Scanner) (inp : RegoInput) (ns : String) (r : RegoRule) :
    (evalRule s inp ns r).nspace = ns := by
  unfold evalRule
  split
  · rfl
  · split <;> rfl

theorem evalRule_ignored_of_nsException (s : Scanner) (inp : RegoInput) (ns : String)
    (r : RegoRule) (h : nsExceptionApplies s ns = true) :
    (evalRule s inp ns r).status = .signored := by
  unfold evalRule
  simp [h]

theorem mem_scanInput (s : Scanner) (inp : RegoInput) (r : RegoResult) :
    r ∈ scanInput s inp ↔ ∃ p ∈ s.policies, r ∈ policyResults s inp p := by
  unfold scanInput
  simp [List.mem_flatten]

theorem mem_policyResults (s : Scanner) (inp : RegoInput) (p : Policy) (r : RegoResult)
    (hr : r ∈ policyResults s inp p) :
    ∃ rule ∈ p.rules, r = evalRule s inp p.nspace rule := by
  unfold policyResults at hr
  split at hr
  · obtain ⟨rule, hmem, heq⟩ := List.mem_map.mp hr
    exact ⟨rule, hmem, heq.symm⟩
  · simp at hr

theorem status_of_mem_scanInput (s : Scanner) (inp : RegoInput) (r : RegoResult)
    (hr : r ∈ scanInput s inp) (hx : nsExceptionApplies s r.nspace = true) :
    r.status = .signored := by
  obtain ⟨p, _, hpr⟩ := (mem_scanInput s inp r).mp hr
  obtain ⟨rule, _, heq⟩ := mem_policyResults s inp p r hpr
  have hns : r.nspace = p.nspace := heq ▸ evalRule_nspace s inp p.nspace rule
  rw [heq]
  exact evalRule_ignored_of_nsException s inp p.nspace rule (hns ▸ hx)

/-- C1: a policy result whose namespace is matched — exactly or by prefix —
by a namespace-level exception rule lands in the ignored bucket and in
neither the passed nor the failed bucket. -/
theorem namespace_exception_buckets (s : Scanner) (inp : RegoInput) (r : RegoResult)
    (hr : r ∈ scanInput s inp) (hx : nsExceptionApplies s r.nspace = true) :
    r ∈ getIgnored s inp ∧ r ∉ getFailed s inp ∧ r ∉ getPassed s inp := by
  have hst := status_of_mem_scanInput s inp r hr hx
  refine ⟨?_, ?_, ?_⟩
  · exact List.mem_filter.mpr ⟨hr, by simp [hst]⟩
  · intro hmem
    have := (List.mem_filter.mp hmem).2
    simp [hst] at this
  · intro hmem
    have := (List.mem_filter.mp hmem).2
    simp [hst] at this

/-- Witness for C1: in the `Test_RegoScanning_Namespace_Exception` scenario —
a failing rule in namespace `defsec.test` and a namespace exception returning
the prefix `defsec` — the theorem applies and the scan yields one ignored
result and zero failed and passed results. -/
theorem namespace_exception_buckets_witness :
    (nsExcResult ∈ scanInput nsExcScanner evilInput ∧
      nsExceptionApplies nsExcScanner nsExcResult.nspace = true) ∧
    (nsExcResult ∈ getIgnored nsExcScanner evilInput ∧
      nsExcResult ∉ getFailed nsExcScanner evilInput ∧
      nsExcResult ∉ getPassed nsExcScanner evilInput) ∧
    (getIgnored nsExcScanner evilInput).length = 1 ∧
    getFailed nsExcScanner evilInput = [] ∧
    getPassed nsExcScanner evilInput = [] :=
  ⟨⟨by decide, by decide⟩,
    namespace_exception_buckets nsExcScanner evilInput nsExcResult (by decide) (by decide),
    by decide, by decide, by decide⟩

/-- C2: a policy with a non-empty Selector list none of whose entries matches
the input contributes no result of any kind, while the matching-selector and
non-matching-selector test scenarios scan to one failed result and to an
entirely empty result set respectively. -/
theorem selector_gating :
    (∀ (s : Scanner) (inp : RegoInput) (p : Policy), p.selectors ≠ [] →
      (∀ sel ∈ p.selectors, selectorMatches sel inp = false) →
      policyResults s inp p = []) ∧
    scanInput selNoMatchScanner evilInput = [] ∧
    (getFailed selMatchScanner evilInput).length = 1 := by
  refine ⟨?_, by decide, by decide⟩
  intro s inp p hne hnm
  have hne' : p.selectors.isEmpty = false := by
    cases hsel : p.selectors with
    | nil => exact absurd hsel hne
    | cons a t => rfl
  have happ : policyApplies p inp = false := by
    unfold policyApplies
    simp only [Bool.or_eq_false_iff, List.any_eq_false]
    exact ⟨hne', fun sel hsel => by simp [hnm sel hsel]⟩
  unfold policyResults
  simp [happ]

/-- Witness for C2: in the `Test_RegoScanning_WithNonMatchingInputSelector`
scenario the selector (input type `testing`) matches nothing, so the policy
contributes no results. -/
theorem selector_gating_witness :
    (selNoMatchPolicy.selectors ≠ [] ∧
      ∀ sel ∈ selNoMatchPolicy.selectors, selectorMatches sel evilInput = false) ∧
    policyResults selNoMatchScanner evilInput selNoMatchPolicy = [] :=
  ⟨⟨by decide, by decide⟩,
    selector_gating.1 selNoMatchScanner evilInput selNoMatchPolicy (by decide) (by decide)⟩

/-- C5: a rule-level exception declared in the same namespace whose returned
list contains the rule's id `x` moves a `deny_x` result to the ignored
bucket; when no exception applies a firing rule stays failed; an exception
never converts a fail into a pass or a pass into a fail; and the two
rule-exception test scenarios resolve to one ignored / zero failed and one
failed / zero ignored results respectively. -/
theorem rule_exception_resolution :
    (∀ (s : Scanner) (inp : RegoInput) (ns x : String) (r : RegoRule)
        (e : RuleException), e ∈ s.ruleExceptions → e.nspace = ns →
        x ∈ e.ruleNames → r.rname = "deny_" ++ x →
        (evalRule s inp ns r).status = .signored) ∧
    (∀ (s : Scanner) (inp : RegoInput) (ns : String) (r : RegoRule),
        nsExceptionApplies s ns = false → ruleExceptionApplies s ns r.rname = false →
        ((evalRule s inp ns r).status = .sfailed ↔ r.predicate inp = true)) ∧
    (∀ (s : Scanner) (inp : RegoInput) (ns : String) (r : RegoRule),
        ((evalRule s inp ns r).status = .spassed → r.predicate inp = false) ∧
        ((evalRule s inp ns r).status = .sfailed → r.predicate inp = true)) ∧
    (getIgnored ruleExcScanner evilInput).length = 1 ∧
    getFailed ruleExcScanner evilInput = [] ∧
    (getFailed ruleExcNoMatchScanner evilInput).length = 1 ∧
    getIgnored ruleExcNoMatchScanner evilInput = [] := by
  refine ⟨?_, ?_, ?_, by decide, by decide, by decide, by decide⟩
  · intro s inp ns x r e he hens hx hr
    have hexc : ruleExceptionApplies s ns r.rname = true := by
      unfold ruleExceptionApplies
      rw [List.any_eq_true]
      refine ⟨e, he, ?_⟩
      rw [Bool.and_eq_true, List.any_eq_true]
      exact ⟨by simp [hens], x, hx, by simp [hr]⟩
    unfold evalRule
    simp [hexc]
  · intro s inp ns r h1 h2
    unfold evalRule
    simp only [h1, h2, Bool.or_self, Bool.false_eq_true, if_false]
    by_cases hp : r.predicate inp
    · simp [hp]
    · simp [hp]
  · intro s inp ns r
    unfold evalRule
    split
    · constructor <;> intro h <;> simp_all
    · split
      · rename_i hp
        constructor <;> intro h <;> simp_all
      · rename_i hp
        constructor <;> intro h <;> simp_all

/-- Witness for C5: in the `Test_RegoScanning_Rule_Exception` scenario the
exception in `defsec.test` returning `["evil"]` moves the `deny_evil` result
to ignored. -/
theorem rule_exception_resolution_witness :
    ({ nspace := "defsec.test", ruleNames := ["evil"] } ∈ ruleExcScanner.ruleExceptions ∧
      "evil" ∈ ["evil"]) ∧
    (evalRule ruleExcScanner evilInput "defsec.test"
      { rname := "deny_evil", predicate := fun i => fieldTrue i "evil" }).status =
        RStatus.signored :=
  ⟨⟨by decide, by decide⟩,
    rule_exception_resolution.1 ruleExcScanner evilInput "defsec.test" "evil"
      { rname := "deny_evil", predicate := fun i => fieldTrue i "evil" }
      { nspace := "defsec.test", ruleNames := ["evil"] }
      (by decide) (by decide) (by decide) (by decide)⟩

/-- C9: a firing `warn` predicate is classified in the failed bucket exactly
like a firing `deny` predicate, distinguished only by the warning flag: the
warn scenario yields one failed result with `IsWarning()` true and the deny
scenario one failed result with `IsWarning()` false. -/
theorem warn_failed_bucket :
    (∀ (s : Scanner) (inp : RegoInput) (ns : String) (r : RegoRule),
        nsExceptionApplies s ns = false → ruleExceptionApplies s ns r.rname = false →
        r.predicate inp = true →
        (evalRule s inp ns r).status = .sfailed ∧
        (evalRule s inp ns r).warning = strStartsWith "warn" r.rname) ∧
    (getFailed warnScanner evilInput).length = 1 ∧
    (getFailed warnScanner evilInput).map RegoResult.warning = [true] ∧
    (getFailed denyScanner evilInput).length = 1 ∧
    (getFailed denyScanner evilInput).map RegoResult.warning = [false] := by
  refine ⟨?_, by decide, by decide, by decide, by decide⟩
  intro s inp ns r h1 h2 h3
  unfold evalRule
  simp [h1, h2, h3]

/-- Witness for C9: the warn rule of `Test_RegoScanning_Warn` fires and is
classified failed with the warning flag set. -/
theorem warn_failed_bucket_witness :
    (evalRule warnScanner evilInput "defsec.test"
      { rname := "warn", predicate := fun i => fieldTrue i "evil" }).status =
        RStatus.sfailed ∧
    (evalRule warnScanner evilInput "defsec.test"
      { rname := "warn", predicate := fun i => fieldTrue i "evil" }).warning =
        strStartsWith "warn" "warn" :=
  warn_failed_bucket.1 warnScanner evilInput "defsec.test"
    { rname := "warn", predicate := fun i => fieldTrue i "evil" }
    (by decide) (by decide) (by decide)

/-!
## Namespace allow-list gating
-/

theorem takeWhile_all_append {p : Char → Bool} (l1 : List Char) (c : Char) (l2 : List Char)
    (h1 : ∀ x ∈ l1, p x = true) (hc : p c = false) :
    (l1 ++ c :: l2).takeWhile p = l1 := by
  induction l1 with
  | nil => simp [List.takeWhile, hc]
  | cons x xs ih =>
    have hx : p x = true := h1 x (List.mem_cons_self x xs)
    simp only [List.cons_append, List.takeWhile_cons, hx, if_true]
    rw [ih (fun y hy => h1 y (List.mem_cons_of_mem x hy))]

theorem dropWhile_head_false {p : Char → Bool} (l l2 : List Char) (c : Char)
    (h : l.dropWhile p = c :: l2) : p c = false := by
  induction l with
  | nil => simp [List.dropWhile] at h
  | cons x xs ih =>
    rw [List.dropWhile_cons] at h
    split at h
    · exact ih h
    · rename_i hx
      cases h
      simpa using hx

/-- Counterexample to C6: the claimed gate — evaluated iff the namespace
matches the allow-list exactly or by dotted prefix, everything running when
no allow-list is set — contradicts `Test_OptionWithPolicyNamespaces`: with
allow-list `["user"]` the namespace `"defsec"` matches nothing yet the test
requires its policy to be evaluated, and with no allow-list the user-declared
namespace `"blah"` is required not to run. -/
theorem namespace_allowlist_counterexample :
    namespaceAllowedSpec ["user"] "defsec" = false ∧
    (["user"], "defsec", true) ∈ nsGateTestTable ∧
    namespaceAllowed ["user"] "defsec" = true ∧
    namespaceAllowedSpec [] "blah" = true ∧
    (([] : List String), "blah", false) ∈ nsGateTestTable ∧
    namespaceAllowed [] "blah" = false := by decide

/-- C6 as amended: a policy is evaluated iff the first dotted component of
its namespace is a built-in root (`builtin`, `appshield`, `defsec`) or one of
the caller's allowed names — so under allow-list `["users"]` the namespace
`users.my_rule` runs while `something.users` and `user` ≠ `users` do not, and
built-in namespaces run whether or not an allow-list is configured; with no
allow-list exactly the built-in roots run. The gate reproduces every row of
`Test_OptionWithPolicyNamespaces`, gates the scanning pipeline, and — for a
dot-free allowed name — coincides with exact-or-dotted-prefix matching of
that name against the namespace. -/
theorem namespaceTopLevel_dotfree (a : String) (ha : ∀ c ∈ a.data, c ≠ '.') :
    namespaceTopLevel a = a := by
  unfold namespaceTopLevel
  apply String.ext
  show a.data.takeWhile (fun c => decide (c ≠ '.')) = a.data
  exact List.takeWhile_eq_self_iff.mpr (fun c hc => decide_eq_true (ha c hc))

theorem namespaceTopLevel_append_dot (a : String) (t : List Char) (ns : String)
    (ha : ∀ c ∈ a.data, c ≠ '.') (h : ns.data = a.data ++ '.' :: t) :
    namespaceTopLevel ns = a := by
  unfold namespaceTopLevel
  apply String.ext
  show ns.data.takeWhile (fun c => decide (c ≠ '.')) = a.data
  rw [h]
  exact takeWhile_all_append a.data '.' t (fun x hx => decide_eq_true (ha x hx)) (by decide)

theorem namespace_allowlist_amended :
    (∀ row ∈ nsGateTestTable, namespaceAllowed row.1 row.2.1 = row.2.2) ∧
    (∀ (s : Scanner) (inp : RegoInput) (p : Policy),
        namespaceAllowed s.allowedNamespaces p.nspace = false →
        policyResults s inp p = []) ∧
    (∀ a ns : String, (∀ c ∈ a.data, c ≠ '.') →
        ((ns = a ∨ strStartsWith (a ++ ".") ns = true) ↔ namespaceTopLevel ns = a)) := by
  refine ⟨by decide, ?_, ?_⟩
  · intro s inp p h
    unfold policyResults
    simp [h]
  · intro a ns ha
    constructor
    · intro hor
      cases hor with
      | inl heq => exact heq ▸ namespaceTopLevel_dotfree a ha
      | inr hpre =>
        unfold strStartsWith at hpre
        obtain ⟨t, ht⟩ := List.isPrefixOf_iff_prefix.mp hpre
        refine namespaceTopLevel_append_dot a t ns ha ?_
        rw [← ht, String.data_append]
        simp
    · intro h
      have htake : ns.data.takeWhile (fun c => decide (c ≠ '.')) = a.data := by
        have := congrArg String.data h
        simpa [namespaceTopLevel] using this
      have hsplit : ns.data = a.data ++ ns.data.dropWhile (fun c => decide (c ≠ '.')) := by
        conv_lhs => rw [← List.takeWhile_append_dropWhile (fun c => decide (c ≠ '.')) ns.data]
        rw [htake]
      cases hdrop : ns.data.dropWhile (fun c => decide (c ≠ '.')) with
      | nil =>
        left
        apply String.ext
        rw [hsplit, hdrop, List.append_nil]
      | cons c t =>
        right
        have hc : decide (c ≠ '.') = false := dropWhile_head_false ns.data t c hdrop
        have hc' : c = '.' := by simpa using of_decide_eq_false hc
        unfold strStartsWith
        rw [List.isPrefixOf_iff_prefix]
        refine ⟨t, ?_⟩
        rw [String.data_append]
        show a.data ++ ".".data ++ t = ns.data
        rw [hsplit, hdrop, hc']
        simp

/-- Witness for the amended C6: the gate admits `users.my_rule` under
allow-list `["users"]` as the test row requires, and for the dot-free allowed
name `users` the dotted-prefix reading coincides with the first-component
reading. -/
theorem namespace_allowlist_amended_witness :
    namespaceAllowed ["users"] "users.my_rule" = true ∧
    namespaceTopLevel "users.my_rule" = "users" :=
  ⟨namespace_allowlist_amended.1 (["users"], "users.my_rule", true) (by decide),
    (namespace_allowlist_amended.2.2 "users" "users.my_rule" (by decide)).mp
      (Or.inr (by decide))⟩

/-- C3: a module instantiation expanded to zero copies (`count = 0` or an
empty `for_each`) contributes no finding, removing it from a forest leaves
the findings unchanged, a resource reached through a non-pruned instantiation
still produces its finding, and the `TestScanModuleWithCount` configuration
scans to exactly the one finding reached through the non-pruned call site. -/
theorem module_count_pruning :
    (∀ (p : String → Bool) (res : List String) (ch : ModForest),
        evalModuleTree p (.node 0 res ch) = []) ∧
    (∀ (p : String → Bool) (res : List String) (ch rest : ModForest),
        evalModuleForest p (.cons (.node 0 res ch) rest) = evalModuleForest p rest) ∧
    (∀ (p : String → Bool) (n : Nat) (res : List String) (ch : ModForest) (x : String),
        x ∈ res → p x = true → 0 < n → x ∈ evalModuleTree p (.node n res ch)) ∧
    evalModuleTree denyTestBucket countTestTree = ["test"] := by
  refine ⟨?_, ?_, ?_, by decide⟩
  · intro p res ch
    simp [evalModuleTree]
  · intro p res ch rest
    simp [evalModuleForest, evalModuleTree]
  · intro p n res ch x hx hp hn
    obtain ⟨m, rfl⟩ := Nat.exists_eq_add_of_lt hn
    unfold evalModuleTree
    rw [Nat.zero_add, List.replicate_succ, List.flatten_cons]
    exact List.mem_append_left _ (List.mem_append_left _ (List.mem_filter.mpr ⟨hx, hp⟩))

/-- Witness for C3: the bucket `"test"` of the s3 module is reached through
the non-pruned instantiation and produces its finding. -/
theorem module_count_pruning_witness :
    ("test" ∈ ["test"] ∧ denyTestBucket "test" = true ∧ 0 < 1) ∧
    "test" ∈ evalModuleTree denyTestBucket
      (.node 1 ["test"] (.cons (.node 1 ["test1"] .nil) .nil)) :=
  ⟨⟨by decide, by decide, by decide⟩,
    module_count_pruning.2.2.1 denyTestBucket 1 ["test"]
      (.cons (.node 1 ["test1"] .nil) .nil) "test" (by decide) (by decide) (by decide)⟩

/-!
## Lemmas about parent-context lookup
-/

theorem lookupStr_eq_none {α : Type} (l : List (String × α)) (k : String)
    (h : ∀ kv ∈ l, kv.1 ≠ k) : lookupStr l k = none := by
  induction l with
  | nil => rfl
  | cons x rest ih =>
    obtain ⟨k', v⟩ := x
    have hx : k' ≠ k := h (k', v) (List.mem_cons_self _ _)
    simp only [lookupStr, if_neg hx]
    exact ih (fun kv hkv => h kv (List.mem_cons_of_mem _ hkv))

theorem lookupStr_append_some {α : Type} {xs ys : List (String × α)} {k : String}
    {v : α} (h : lookupStr xs k = some v) : lookupStr (xs ++ ys) k = some v := by
  induction xs with
  | nil => simp [lookupStr] at h
  | cons x rest ih =>
    obtain ⟨k', w⟩ := x
    by_cases hk : k' = k
    · simp only [lookupStr, if_pos hk] at h ⊢
      exact h
    · simp only [lookupStr, if_neg hk] at h ⊢
      exact ih h

theorem lookupStr_append_none {α : Type} {xs ys : List (String × α)} {k : String}
    (h : lookupStr xs k = none) : lookupStr (xs ++ ys) k = lookupStr ys k := by
  induction xs with
  | nil => rfl
  | cons x rest ih =>
    obtain ⟨k', w⟩ := x
    by_cases hk : k' = k
    · simp [lookupStr, if_pos hk] at h
    · simp only [List.cons_append, lookupStr, if_neg hk] at h ⊢
      exact ih h

theorem strAppend_left_cancel {s x y : String} (h : s ++ x = s ++ y) : x = y := by
  apply String.ext
  have hd := congrArg String.data h
  rw [String.data_append, String.data_append] at hd
  exact List.append_cancel_left hd

theorem moduleKey_inj {cn a b : String}
    (h : "module." ++ cn ++ "." ++ a = "module." ++ cn ++ "." ++ b) : a = b :=
  strAppend_left_cancel h

theorem lookup_flatten_none (l1 : List ChildMod) (key : String)
    (h : ∀ c' ∈ l1, ∀ d ∈ c'.outputs, "module." ++ c'.cname ++ "." ++ d.oname ≠ key) :
    lookupStr ((l1.map moduleOutputBindings).flatten) key = none := by
  induction l1 with
  | nil => rfl
  | cons c' restl ih =>
    rw [List.map_cons, List.flatten_cons]
    have hc' : lookupStr (moduleOutputBindings c') key = none := by
      apply lookupStr_eq_none
      intro kv hkv
      obtain ⟨dd, hdd, hkveq⟩ := List.mem_map.mp hkv
      rw [← hkveq]
      exact h c' (List.mem_cons_self _ _) dd hdd
    rw [lookupStr_append_none hc']
    exact ih (fun x hx dd hdd => h x (List.mem_cons_of_mem _ hx) dd hdd)

theorem lookup_outputs_aux (cn : String) (ctx : List (String × TVal))
    (outs : List OutputDef) (o : String) :
    lookupStr (outs.map (fun d => ("module." ++ cn ++ "." ++ d.oname, evalExpr ctx d.oexpr)))
        ("module." ++ cn ++ "." ++ o)
      = (outs.find? (fun d => d.oname = o)).map (fun d => evalExpr ctx d.oexpr) := by
  induction outs with
  | nil => rfl
  | cons d rest ih =>
    by_cases h : d.oname = o
    · simp only [List.map_cons, lookupStr, List.find?_cons, h]
      simp
    · have hk : ("module." ++ cn ++ "." ++ d.oname) ≠ ("module." ++ cn ++ "." ++ o) :=
        fun he => h (moduleKey_inj he)
      have hdec : (decide (d.oname = o)) = false := decide_eq_false h
      simp only [List.map_cons, lookupStr, List.find?_cons, hdec, cond_false, if_neg hk]
      exact ih

/-- C4: in a parent whose children are distinctly keyed, a reference
`module.<child>.<output>` evaluated in the parent's context resolves to the
very value the child's own evaluation produced for that output block. -/
theorem module_output_propagation (p : ParentMod) (c : ChildMod) (o : String)
    (l1 l2 : List ChildMod) (hsplit : p.children = l1 ++ c :: l2)
    (hclash : ∀ c' ∈ l1, ∀ d ∈ c'.outputs,
        "module." ++ c'.cname ++ "." ++ d.oname ≠ "module." ++ c.cname ++ "." ++ o)
    (hdecl : (c.outputs.find? (fun d => d.oname = o)).isSome) :
    evalExpr (parentCtx p) (.ref ("module." ++ c.cname ++ "." ++ o)) =
      childOutputVal c o := by
  obtain ⟨d, hd⟩ := Option.isSome_iff_exists.mp hdecl
  have h1 : lookupStr ((l1.map moduleOutputBindings).flatten)
      ("module." ++ c.cname ++ "." ++ o) = none :=
    lookup_flatten_none l1 _ hclash
  have h2 : lookupStr (moduleOutputBindings c) ("module." ++ c.cname ++ "." ++ o)
      = some (evalExpr (childCtx c) d.oexpr) := by
    unfold moduleOutputBindings
    rw [lookup_outputs_aux c.cname (childCtx c) c.outputs o, hd]
    rfl
  show (lookupStr (parentCtx p) ("module." ++ c.cname ++ "." ++ o)).getD .vunknown = _
  unfold parentCtx
  rw [hsplit, List.map_append, List.flatten_append, List.map_cons, List.flatten_cons]
  rw [lookupStr_append_none h1, lookupStr_append_some h2]
  unfold childOutputVal
  rw [hd]
  rfl


/-- Witness for C4: in the `Test_RoleRefToOutput` configuration the parent's
`module.this.role_name` reference resolves to the `role_name` output of the
child iam module, the parent's `role` attribute takes that value, and it
equals the child's own evaluation result `"example"`. -/
theorem module_output_propagation_witness :
    (roleRefParent.children = [] ++ iamChild :: [] ∧
      (iamChild.outputs.find? (fun d => d.oname = "role_name")).isSome) ∧
    evalExpr (parentCtx roleRefParent) (.ref ("module." ++ iamChild.cname ++ "." ++ "role_name")) =
      childOutputVal iamChild "role_name" ∧
    parentAttrVal roleRefParent "role" = .vstr "example" ∧
    childOutputVal iamChild "role_name" = .vstr "example" :=
  ⟨⟨by decide, by decide⟩,
    module_output_propagation roleRefParent iamChild "role_name" [] []
      (by decide) (by simp) (by decide),
    by decide, by decide⟩

/-!
## Properties of the module loader
-/

theorem loadModules_append (e : Evaluator) (xs ys : List TFBlock) :
    loadModules e (xs ++ ys) = loadModules e xs ++ loadModules e ys := by
  induction xs with
  | nil => rfl
  | cons b rest ih =>
    simp only [List.cons_append, loadModules]
    by_cases hb : b.label = ""
    · simp [hb, ih]
    · simp only [hb, if_neg, if_false]
      cases hm : loadModule e b <;> simp [hm, ih]

theorem loadModuleFromTerraformCache_ok (e : Evaluator) (b : TFBlock) (src : String)
    (d : ModuleDefinitionL) (h : loadModuleFromTerraformCache e b src = Except.ok d) :
    d.name = b.label ∧ d.external = false := by
  unfold loadModuleFromTerraformCache at h
  split at h
  · cases h
  · split at h
    · cases h
      exact ⟨rfl, rfl⟩
    · cases h

theorem loadExternalModule_ok (e : Evaluator) (b : TFBlock) (src : String)
    (d : ModuleDefinitionL) (h : loadExternalModule e b src = Except.ok d) :
    d.name = b.label ∧ d.external = true := by
  unfold loadExternalModule at h
  split at h
  · cases h
  · split at h
    · cases h
      exact ⟨rfl, rfl⟩
    · cases h

theorem loadModule_ok_name (e : Evaluator) (b : TFBlock) (d : ModuleDefinitionL)
    (h : loadModule e b = Except.ok d) : d.name = b.label := by
  unfold loadModule at h
  split at h
  · cases h
  · split at h
    · cases h
    · split at h
      · rename_i d' hd'
        cases h
        exact (loadModuleFromTerraformCache_ok e b _ d hd').1
      · exact (loadExternalModule_ok e b _ d h).1

/-- C7: a labeled module block whose `source` attribute is missing,
non-string, or empty makes `loadModule` fail with an error naming the block's
source range, and `loadModules` produces no definition for the block while
the sibling blocks are processed as if the bad block were absent. -/
theorem missing_module_source (e : Evaluator) (b : TFBlock) (xs ys : List TFBlock)
    (hl : b.label ≠ "") (hs : getSourceAttr b = "") :
    loadModule e b =
      Except.error ("could not read module source attribute at " ++ b.rangeStr) ∧
    loadModules e (xs ++ b :: ys) = loadModules e (xs ++ ys) := by
  have herr : loadModule e b =
      Except.error ("could not read module source attribute at " ++ b.rangeStr) := by
    unfold loadModule
    rw [if_neg hl, hs]
    simp
  refine ⟨herr, ?_⟩
  rw [loadModules_append, loadModules_append]
  congr 1
  show loadModules e (b :: ys) = loadModules e ys
  conv_lhs => rw [loadModules]
  rw [if_neg hl, herr]

/-- Evaluator with no module-cache manifest whose external resolution and
parsing always succeed. -/
def trivialEvaluator : Evaluator :=
  { moduleMetadata := none, projectRootPath := "", parseFS := fun _ => true,
    resolveExternal := fun _ _ => Except.ok "downloaded/mod" }

/-- A labeled module block whose `source` attribute is the empty string. -/
def emptySourceBlock : TFBlock :=
  { label := "bad", moduleName := "bad", fullName := "module.bad",
    rangeStr := "main.tf:1-3", attrs := [{ name := "source", value := .str "" }] }

/-- A sibling module block with a usable remote source. -/
def goodModuleBlock : TFBlock :=
  { label := "good", moduleName := "good", fullName := "module.good",
    rangeStr := "main.tf:5-8",
    attrs := [{ name := "source", value := .str "git::https://example.com/mod" }] }

/-- Witness for C7: the empty-source block fails with its range in the error
message, sibling loading is unaffected, and the sibling's definition is still
produced. -/
theorem missing_module_source_witness :
    (emptySourceBlock.label ≠ "" ∧ getSourceAttr emptySourceBlock = "") ∧
    (loadModule trivialEvaluator emptySourceBlock =
        Except.error ("could not read module source attribute at " ++ emptySourceBlock.rangeStr) ∧
      loadModules trivialEvaluator ([goodModuleBlock] ++ emptySourceBlock :: [goodModuleBlock]) =
        loadModules trivialEvaluator ([goodModuleBlock] ++ [goodModuleBlock])) ∧
    (loadModules trivialEvaluator [emptySourceBlock, goodModuleBlock]).length = 1 :=
  ⟨⟨by decide, by decide⟩,
    missing_module_source trivialEvaluator emptySourceBlock [goodModuleBlock] [goodModuleBlock]
      (by decide) (by decide),
    by decide⟩

/-- C8: for a block with a usable source, the module-cache lookup is attempted
first — a successful lookup is returned as is and is not marked external —
and only a cache error falls back to external resolution, whose successful
definitions are marked external. -/
theorem cache_preferred_over_external (e : Evaluator) (b : TFBlock)
    (hl : b.label ≠ "") (hs : getSourceAttr b ≠ "") :
    (∀ d, loadModuleFromTerraformCache e b (getSourceAttr b) = Except.ok d →
        loadModule e b = Except.ok d ∧ d.external = false) ∧
    (∀ msg, loadModuleFromTerraformCache e b (getSourceAttr b) = Except.error msg →
        loadModule e b = loadExternalModule e b (getSourceAttr b)) ∧
    (∀ d, loadExternalModule e b (getSourceAttr b) = Except.ok d →
        d.external = true) := by
  refine ⟨?_, ?_, ?_⟩
  · intro d h
    refine ⟨?_, (loadModuleFromTerraformCache_ok e b _ d h).2⟩
    unfold loadModule
    rw [if_neg hl, if_neg hs, h]
  · intro msg h
    unfold loadModule
    rw [if_neg hl, if_neg hs, h]
  · intro d h
    exact (loadExternalModule_ok e b _ d h).2

/-- Evaluator holding a module-cache manifest mapping module `this` to the
cached directory `modules/iam` under project root `proj`; its network
resolver always fails. -/
def cacheEvaluator : Evaluator :=
  { moduleMetadata := some { modules := [{ key := "this", dir := "modules/iam" }] },
    projectRootPath := "proj", parseFS := fun _ => true,
    resolveExternal := fun _ _ => Except.error "no network" }

/-- The module block resolved through the cache manifest. -/
def cachedModuleBlock : TFBlock :=
  { label := "this", moduleName := "this", fullName := "module.this",
    rangeStr := "main.tf:1-3",
    attrs := [{ name := "source", value := .str "./modules/iam" }] }

/-- The definition the cache path produces for `cachedModuleBlock`. -/
def cachedDef : ModuleDefinitionL :=
  { name := "this", path := "proj/modules/iam", definition := cachedModuleBlock,
    external := false }

/-- The definition external resolution produces for `goodModuleBlock`. -/
def externalDef : ModuleDefinitionL :=
  { name := "good", path := "downloaded/mod", definition := goodModuleBlock,
    external := true }

/-- Witness for C8: the cache hit is returned not-external; with no manifest
the loader falls back to external resolution, which marks its definition
external. -/
theorem cache_preferred_over_external_witness :
    (cachedModuleBlock.label ≠ "" ∧ getSourceAttr cachedModuleBlock ≠ "") ∧
    (loadModule cacheEvaluator cachedModuleBlock = Except.ok cachedDef ∧
      cachedDef.external = false) ∧
    loadModule trivialEvaluator goodModuleBlock =
      loadExternalModule trivialEvaluator goodModuleBlock (getSourceAttr goodModuleBlock) ∧
    externalDef.external = true :=
  ⟨⟨by decide, by decide⟩,
    (cache_preferred_over_external cacheEvaluator cachedModuleBlock
      (by decide) (by decide)).1 cachedDef (by rfl),
    (cache_preferred_over_external trivialEvaluator goodModuleBlock
      (by decide) (by decide)).2.1 "failed to load module from .terraform/modules" (by rfl),
    (cache_preferred_over_external trivialEvaluator goodModuleBlock
      (by decide) (by decide)).2.2 externalDef (by rfl)⟩

/-- C10: an unlabeled module block is skipped silently — `loadModules`
neither errors nor produces a definition for it and treats the block list as
if the block were absent — and every returned definition stems from a labeled
block whose load succeeded, carrying that block's label as its name. -/
theorem unlabeled_module_blocks :
    (∀ (e : Evaluator) (b : TFBlock) (xs ys : List TFBlock), b.label = "" →
        loadModules e (xs ++ b :: ys) = loadModules e (xs ++ ys)) ∧
    (∀ (e : Evaluator) (bs : List TFBlock) (d : ModuleDefinitionL),
        d ∈ loadModules e bs →
        ∃ b ∈ bs, b.label ≠ "" ∧ loadModule e b = Except.ok d ∧ d.name = b.label) := by
  constructor
  · intro e b xs ys hb
    rw [loadModules_append, loadModules_append]
    congr 1
    show loadModules e (b :: ys) = loadModules e ys
    conv_lhs => rw [loadModules]
    rw [if_pos hb]
  · intro e bs
    induction bs with
    | nil =>
      intro d hd
      simp [loadModules] at hd
    | cons b rest ih =>
      intro d hd
      unfold loadModules at hd
      by_cases hb : b.label = ""
      · rw [if_pos hb] at hd
        obtain ⟨b', hb', hrest⟩ := ih d hd
        exact ⟨b', List.mem_cons_of_mem _ hb', hrest⟩
      · rw [if_neg hb] at hd
        cases hm : loadModule e b with
        | ok dd =>
          rw [hm] at hd
          rcases List.mem_cons.mp hd with rfl | hmem
          · exact ⟨b, List.mem_cons_self _ _, hb, hm, loadModule_ok_name e b d hm⟩
          · obtain ⟨b', hb', hrest⟩ := ih d hmem
            exact ⟨b', List.mem_cons_of_mem _ hb', hrest⟩
        | error msg =>
          rw [hm] at hd
          obtain ⟨b', hb', hrest⟩ := ih d hd
          exact ⟨b', List.mem_cons_of_mem _ hb', hrest⟩

/-- An unlabeled module block (no label on the `module` declaration). -/
def unlabeledBlock : TFBlock :=
  { label := "", moduleName := "", fullName := "module",
    rangeStr := "main.tf:10-12",
    attrs := [{ name := "source", value := .str "./x" }] }

/-- Witness for C10: with an unlabeled block between two labeled siblings the
returned definitions are exactly those of the siblings, and the skipped block
contributes nothing. -/
theorem unlabeled_module_blocks_witness :
    (unlabeledBlock.label = "" ∧
      loadModules trivialEvaluator ([goodModuleBlock] ++ unlabeledBlock :: [goodModuleBlock]) =
        loadModules trivialEvaluator ([goodModuleBlock] ++ [goodModuleBlock])) ∧
    (externalDef ∈ loadModules trivialEvaluator [unlabeledBlock, goodModuleBlock] ∧
      ∃ b ∈ [unlabeledBlock, goodModuleBlock], b.label ≠ "" ∧
        loadModule trivialEvaluator b = Except.ok externalDef ∧
        externalDef.name = b.label) :=
  ⟨⟨by decide,
      unlabeled_module_blocks.1 trivialEvaluator unlabeledBlock [goodModuleBlock]
        [goodModuleBlock] (by decide)⟩,
    ⟨by decide,
      unlabeled_module_blocks.2 trivialEvaluator [unlabeledBlock, goodModuleBlock]
        externalDef (by decide)⟩⟩
